import Mathlib

/-!
# ChurnGuard — verification of the inference & attribution pipeline

Shallow embedding of the repository's Python backend:

* `backend/utils/data_preprocessing.py` — `clean_data`
* `backend/services/prediction_service.py` — `predict_single`, `predict_batch`
* `backend/services/shap_service.py` — `calculate_shap_values`,
  `get_top_features`, `calculate_batch_shap_aggregate`
* `backend/services/batch_service.py` — `analyze_high_risk_group`

Pandas DataFrames are modelled column-wise as association lists from column
name to a list of cell values; cell values are either strings or rationals
(float literals of the source are read as exact rationals).  The trained
model artifact (sklearn pipeline + SHAP TreeExplainer) is not part of the
repository's source; it is modelled from the spec as an abstract `Pipeline`
structure.
-/

namespace ChurnGuard

/-- A pandas cell value: either a string or a number (floats as rationals). -/
inductive Value where
  | str : String → Value
  | num : ℚ → Value
deriving DecidableEq, Repr

/-- Interpret a list of decimal digit characters as a natural number. -/
def digitsToNat (cs : List Char) : Nat :=
  cs.foldl (fun n c => n * 10 + (c.toNat - Char.toNat '0')) 0

/-- Model of `pd.to_numeric` on a string cell: optional sign, then a decimal
literal `digits`, `digits.digits`, `digits.` or `.digits` (surrounding
whitespace stripped); anything else fails to parse (`errors="coerce"` turns
that into NaN at the call site). -/
def parseNumString (s : String) : Option ℚ :=
  let cs := ((s.toList.dropWhile Char.isWhitespace).reverse.dropWhile
    Char.isWhitespace).reverse
  let signed : Bool × List Char :=
    match cs with
    | List.cons c rest =>
        if c = '-' then (true, rest)
        else if c = '+' then (false, rest)
        else (false, cs)
    | [] => (false, cs)
  let neg := signed.1
  let cs2 := signed.2
  let ints := cs2.takeWhile Char.isDigit
  let rest := cs2.dropWhile Char.isDigit
  let body : Option ℚ :=
    match rest with
    | [] => if ints.isEmpty then none else some ((digitsToNat ints : ℚ))
    | List.cons c fracs =>
        if c = '.' ∧ fracs.all Char.isDigit ∧ ¬(ints.isEmpty ∧ fracs.isEmpty) then
          some ((digitsToNat ints : ℚ) + (digitsToNat fracs : ℚ) / (10 : ℚ) ^ fracs.length)
        else none
  body.map (fun q => if neg then -q else q)

/-- Numeric reading of a cell: numbers read as themselves, strings are parsed. -/
def Value.toParsedNum : Value → Option ℚ
  | .num q => some q
  | .str s => parseNumString s

/-- `pd.to_numeric(col, errors="coerce").fillna(0)` on one cell: parse as a
number, substituting `0` on parse failure. -/
def coerceNumeric (v : Value) : Value :=
  match v.toParsedNum with
  | some q => .num q
  | none => .num 0

/-- `series.replace(old, "No")` on one cell. -/
def replaceValue (old : String) (v : Value) : Value :=
  if v = .str old then .str "No" else v

/-- Column-oriented model of a pandas DataFrame: each column is a name paired
with its list of cell values (all columns of a real frame have equal length). -/
structure DataFrame where
  cols : List (String × List Value)
deriving DecidableEq, Repr

namespace DataFrame

/-- `df.columns`. -/
def columnNames (df : DataFrame) : List String := df.cols.map (fun c => c.1)

/-- `name in df.columns`. -/
def hasColumn (df : DataFrame) (n : String) : Bool :=
  df.cols.any (fun c => c.1 == n)

/-- `df[n]` (first column with that name, as in pandas label lookup). -/
def getColumn (df : DataFrame) (n : String) : Option (List Value) :=
  (df.cols.find? (fun c => c.1 == n)).map (fun c => c.2)

/-- `df.drop(columns=[n])`. -/
def dropColumn (df : DataFrame) (n : String) : DataFrame :=
  ⟨df.cols.filter (fun c => !(c.1 == n))⟩

/-- `df[n] = df[n].map(f)`: transform every cell of the column named `n`. -/
def mapColumn (df : DataFrame) (n : String) (f : Value → Value) : DataFrame :=
  ⟨df.cols.map (fun c => if c.1 = n then (c.1, c.2.map f) else c)⟩

/-- `df[n] = vs`: replace the column if present, else append it (pandas
column assignment). -/
def setColumn (df : DataFrame) (n : String) (vs : List Value) : DataFrame :=
  if df.hasColumn n then ⟨df.cols.map (fun c => if c.1 = n then (c.1, vs) else c)⟩
  else ⟨df.cols ++ [(n, vs)]⟩

/-- Keep the entries of `vs` whose position in `mask` holds `true`. -/
def maskFilter (vs : List Value) (mask : List Bool) : List Value :=
  ((vs.zip mask).filter (fun p => p.2)).map (fun p => p.1)

/-- `df[mask]`: boolean-mask row selection. -/
def selectRows (df : DataFrame) (mask : List Bool) : DataFrame :=
  ⟨df.cols.map (fun c => (c.1, maskFilter c.2 mask))⟩

/-- `len(df)`: the number of rows (length of the first column, 0 if none). -/
def nrows (df : DataFrame) : Nat :=
  match df.cols with
  | [] => 0
  | List.cons c _ => c.2.length

/-- `df.empty`: no rows in any column (also true for a frame with no columns). -/
def isEmpty (df : DataFrame) : Bool :=
  df.cols.all (fun c => c.2.isEmpty)

end DataFrame

/-- The add-on-service columns whose "no base service" sentinel collapses to
`"No"` (`replace_cols` in `data_preprocessing.py`). -/
def replace_cols : List String :=
  ["MultipleLines", "OnlineSecurity", "OnlineBackup",
   "DeviceProtection", "TechSupport", "StreamingTV", "StreamingMovies"]

/-- Body of the `for col in replace_cols` loop of `clean_data`:
`df[col] = df[col].replace("No internet service", "No")` followed by
`df[col] = df[col].replace("No phone service", "No")`. -/
def replacePass (d : DataFrame) (col : String) : DataFrame :=
  (d.mapColumn col (replaceValue "No internet service")).mapColumn col
    (replaceValue "No phone service")

/-- `clean_data` from `backend/utils/data_preprocessing.py`:
drop `customerID` and `Churn` when present, coerce `TotalCharges` to a
number with parse failures becoming 0, and collapse the
`"No internet service"` / `"No phone service"` sentinels to `"No"` in the
seven add-on-service columns. -/
def clean_data (df : DataFrame) : DataFrame :=
  let df1 := if df.hasColumn "customerID" then df.dropColumn "customerID" else df
  let df2 := if df1.hasColumn "Churn" then df1.dropColumn "Churn" else df1
  let df3 := if df2.hasColumn "TotalCharges"
             then df2.mapColumn "TotalCharges" coerceNumeric else df2
  replace_cols.foldl
    (fun d col => if d.hasColumn col then replacePass d col else d)
    df3

/-- Numeric reading of a cell for `Series.mean()`: only numeric cells count. -/
def Value.toNum : Value → Option ℚ
  | .num q => some q
  | .str _ => none

/-- Ordering used by pandas when sorting mode candidates: numbers before
strings, numbers by value, strings lexicographically. -/
def Value.le : Value → Value → Bool
  | .num a, .num b => decide (a ≤ b)
  | .num _, .str _ => true
  | .str _, .num _ => false
  | .str a, .str b => decide (a ≤ b)

/-- `series.mode()[0]` guarded by `mode().empty`: the smallest among the most
frequent values, `none` when the series is empty. -/
def seriesModeHead (vs : List Value) : Option Value :=
  let maxCount := (vs.map (fun v => vs.count v)).foldr max 0
  let candidates := vs.dedup.filter (fun v => vs.count v == maxCount)
  (candidates.mergeSort Value.le).head?

/-- `Series.mean()` of a numeric column (0 for a column with no numeric cell;
the callers only reach this on nonempty numeric columns). -/
def meanOfColumn (vs : List Value) : ℚ :=
  let ns := vs.filterMap Value.toNum
  if ns.isEmpty then 0 else ns.sum / (ns.length : ℚ)

/-- Python fixed-point formatting `f"{q:.prec f}"` on a rational. -/
def formatFixed (q : ℚ) (prec : Nat) : String :=
  let scaled : ℤ := round (q * (10 : ℚ) ^ prec)
  let sign := if scaled < 0 then "-" else ""
  let a := scaled.natAbs
  let ip := a / 10 ^ prec
  let fp := a % 10 ^ prec
  if prec = 0 then sign ++ toString ip
  else
    let fs := toString fp
    let pad := String.mk (List.replicate (prec - fs.length) '0')
    sign ++ toString ip ++ "." ++ pad ++ fs

/-- Rendering of a cell inside the narrative summary string. -/
def Value.render : Value → String
  | .str s => s
  | .num q => formatFixed q 1

/-- Raw result shape of `shap.TreeExplainer.shap_values`: sometimes one matrix
per class, sometimes a single matrix (spec §9, "Polymorphic SHAP output
shape"). -/
inductive ShapOutput where
  | single : List (List ℚ) → ShapOutput
  | perClass : List (List (List ℚ)) → ShapOutput

/-- The `isinstance(shap_vals, list)` handling in `shap_service.py`: a
per-class result selects index 1 (the churn class), a single matrix is used
as-is.  Selecting index 1 from a too-short list is the Python `IndexError`. -/
def ShapOutput.select : ShapOutput → Option (List (List ℚ))
  | .single m => some m
  | .perClass l => l[1]?

/-- Modelled from the spec: the trained model artifact
(`data/best_churn_model.pkl`) is not part of the repository's source.  Per
spec §4.2/§4.3 it is a frozen two-stage pipeline — a deterministic feature
encoder (`named_steps["preprocessor"]`) followed by a tree-ensemble
classifier (`named_steps["classifier"]`) — read through a SHAP
`TreeExplainer` with a fixed baseline (expected value) and an additive
per-encoded-feature decomposition of the positive-class probability. -/
structure Pipeline where
  /-- Width of the encoded feature space; categorical expansion may make this
  exceed the raw column count (spec §3). -/
  encodedDim : Nat
  /-- `preprocessor.transform`: one encoded row per input row. -/
  encode : DataFrame → List (List ℚ)
  /-- Positive-class (churn) probability of the classifier on one encoded row. -/
  proba : List ℚ → ℚ
  /-- The explainer's fixed baseline (expected value over its background data). -/
  baseline : ℚ
  /-- Per-row SHAP decomposition for the churn class. -/
  shapRow : List ℚ → List ℚ
  /-- Raw output of `explainer.shap_values` on an encoded matrix. -/
  shapOutput : List (List ℚ) → ShapOutput
  /-- One encoded row per input row. -/
  encode_length : ∀ df : DataFrame, (encode df).length = df.nrows
  /-- The decomposition has one entry per encoded feature. -/
  shapRow_length : ∀ x, (shapRow x).length = encodedDim
  /-- Local accuracy (spec §3, additive consistency): the contributions sum to
  the positive-class probability minus the baseline. -/
  shap_additive : ∀ x, (shapRow x).sum = proba x - baseline
  /-- Whatever the raw output shape, selecting the churn class yields the
  row-wise decomposition. -/
  shapOutput_select : ∀ X, (shapOutput X).select = some (X.map shapRow)

/-- Modelled from the spec (§4.2): `model.predict_proba` — one row
`[1 - p, p]` per record, `p` the positive-class probability. -/
def Pipeline.predict_proba (m : Pipeline) (df : DataFrame) : List (List ℚ) :=
  (m.encode df).map (fun x => [1 - m.proba x, m.proba x])

/-- Modelled from the spec (§4.2): `model.predict` — label 1 iff the
positive-class probability exceeds 0.5. -/
def Pipeline.predict (m : Pipeline) (df : DataFrame) : List Nat :=
  (m.encode df).map (fun x => if 1/2 < m.proba x then 1 else 0)

/-- `calculate_shap_values` from `shap_service.py`: transform with the
pipeline's preprocessor, run the explainer, select the churn class when the
output is per-class, flatten, and pair with the *input frame's* column
names. -/
def calculate_shap_values (model : Pipeline) (preprocessed_data : DataFrame) :
    Option (List ℚ × List String) :=
  let X_transformed := model.encode preprocessed_data
  match (model.shapOutput X_transformed).select with
  | none => none
  | some shap_vals => some (shap_vals.flatten, preprocessed_data.columnNames)

/-- Result of `predict_single` (the `/predict` response payload). -/
structure SingleResult where
  prediction : Nat
  churn_probability : ℚ
  shap_values : List ℚ
  feature_names : List String
deriving DecidableEq, Repr

/-- `pd.DataFrame([customer_data])`: one column per key, a single row. -/
def DataFrame.ofRecord (customer_data : List (String × Value)) : DataFrame :=
  ⟨customer_data.map (fun kv => (kv.1, [kv.2]))⟩

/-- `predict_single` from `prediction_service.py`.  The `[0]` / `[0][1]`
indexing of the prediction arrays is fallible, hence the `Option`. -/
def predict_single (model : Pipeline) (customer_data : List (String × Value)) :
    Option SingleResult :=
  let df := DataFrame.ofRecord customer_data
  let df_clean := clean_data df
  ((model.predict df_clean)[0]?).bind (fun pred =>
    (((model.predict_proba df_clean)[0]?).bind (fun row => row[1]?)).bind (fun prob =>
      (calculate_shap_values model df_clean).map (fun sf =>
        ⟨pred, prob, sf.1, sf.2⟩)))

/-- `get_top_features` from `shap_service.py`: zip names with values, sort by
absolute value descending (Python `list.sort` is stable, so ties keep their
original order), truncate to `top_n`. -/
def get_top_features (shap_values : List ℚ) (feature_names : List String)
    (top_n : Nat) : List (String × ℚ) :=
  let feats := feature_names.zip shap_values
  (feats.mergeSort (fun a b => decide (|b.2| ≤ |a.2|))).take top_n

/-- `np.mean(np.abs(A), axis=0)` for a rectangular matrix: per-column mean of
absolute values (the column count read off the first row). -/
def npMeanAbs0 (m : List (List ℚ)) : List ℚ :=
  let w := match m with
    | [] => 0
    | List.cons r _ => r.length
  (List.range w).map (fun j => (m.map (fun row => |row.getD j 0|)).sum / (m.length : ℚ))

/-- The dictionary returned by `calculate_batch_shap_aggregate`. -/
structure ShapAggregate where
  top_features : List (String × ℚ)
  mean_shap_values : List ℚ
  feature_names : List String
deriving DecidableEq, Repr

/-- `calculate_batch_shap_aggregate` from `shap_service.py`: `None` on an
empty frame, else mean absolute SHAP value per feature over all rows, names
zipped with those means, stably sorted by absolute value descending and cut
to the first 10. -/
def calculate_batch_shap_aggregate (model : Pipeline) (high_risk_data : DataFrame) :
    Option ShapAggregate :=
  if high_risk_data.isEmpty then none
  else
    let X_transformed := model.encode high_risk_data
    match (model.shapOutput X_transformed).select with
    | none => none
    | some shap_vals =>
        let feature_names := high_risk_data.columnNames
        let mean_shap := npMeanAbs0 shap_vals
        let top_features :=
          ((feature_names.zip mean_shap).mergeSort (fun a b => decide (|b.2| ≤ |a.2|))).take 10
        some ⟨top_features, mean_shap, feature_names⟩

/-- `predict_batch` from `prediction_service.py`: clean, score, append the
`Churn_Probability` and `Risk_Level` columns to a copy of the *original*
frame, and (when requested and any row exceeds 0.6) aggregate SHAP over the
high-risk subset of the cleaned frame.  (The unused `preds` local of the
source is omitted.) -/
def predict_batch (model : Pipeline) (df : DataFrame) (include_shap : Bool) :
    DataFrame × DataFrame × List ℚ × Option ShapAggregate :=
  let df_clean := clean_data df
  let probs := (model.predict_proba df_clean).map (fun row => row.getD 1 0)
  let results_df :=
    (df.setColumn "Churn_Probability" (probs.map Value.num)).setColumn "Risk_Level"
      (probs.map (fun q => Value.str (if (3 : ℚ)/5 < q then "High" else "Low")))
  let shap_aggregate :=
    if include_shap then
      let high_risk_mask := probs.map (fun q => decide ((3 : ℚ)/5 < q))
      if high_risk_mask.any id then
        calculate_batch_shap_aggregate model (df_clean.selectRows high_risk_mask)
      else none
    else none
  (results_df, df_clean, probs, shap_aggregate)

/-- `analyze_high_risk_group` from `batch_service.py`: select the rows with
probability strictly above 0.6; on an empty selection return the fixed
sentinel, else build the cohort statistics string (plus SHAP insights when a
nonempty aggregate is supplied). -/
def analyze_high_risk_group (df_clean : DataFrame) (probs : List ℚ)
    (shap_aggregate : Option ShapAggregate) : String :=
  let high_risk_df := df_clean.selectRows (probs.map (fun q => decide ((3 : ℚ)/5 < q)))
  let total_customers := df_clean.nrows
  let churn_rate : ℚ :=
    if 0 < total_customers then ((high_risk_df.nrows : ℚ) / (total_customers : ℚ)) * 100 else 0
  if high_risk_df.isEmpty then "Great news! Very few high-risk customers detected."
  else
    let cat_summary := ["Contract", "InternetService", "PaymentMethod", "TechSupport"].filterMap
      (fun col => (high_risk_df.getColumn col).bind
        (fun vs => (seriesModeHead vs).map (fun v => col ++ ": " ++ v.render)))
    let avg_tenure := match high_risk_df.getColumn "tenure" with
      | some vs => meanOfColumn vs
      | none => 0
    let avg_charge := match high_risk_df.getColumn "MonthlyCharges" with
      | some vs => meanOfColumn vs
      | none => 0
    let summary_stats :=
      "\n    - High Risk Customers: " ++ toString high_risk_df.nrows ++ " (" ++
      formatFixed churn_rate 1 ++ "% of total)\n    - Average Tenure of Risk Group: " ++
      formatFixed avg_tenure 1 ++ " months\n    - Average Monthly Charge: $" ++
      formatFixed avg_charge 2 ++ "\n    - Common Patterns: " ++
      String.intercalate ", " cat_summary ++ "\n    "
    let shap_insights := match shap_aggregate with
      | some agg =>
          if agg.top_features.isEmpty then ""
          else "\n    - Top Churn Drivers (Feature Importance):" ++
            String.join ((agg.top_features.take 5).enum.map (fun p =>
              "\n      " ++ toString (p.1 + 1) ++ ". " ++ p.2.1 ++ ": " ++
              formatFixed p.2.2 3 ++ " (avg impact)"))
      | none => ""
    summary_stats ++ shap_insights

/-- A tiny heap of pandas DataFrame objects for the aliasing/mutation claims:
references are allocation-ordered naturals. -/
structure PdState where
  next : Nat
  mem : Nat → DataFrame

/-- Allocate a fresh object. -/
def PdState.alloc (s : PdState) (d : DataFrame) : PdState × Nat :=
  (⟨s.next + 1, fun a => if a = s.next then d else s.mem a⟩, s.next)

/-- In-place update of the object at reference `r`. -/
def PdState.write (s : PdState) (r : Nat) (d : DataFrame) : PdState :=
  ⟨s.next, fun a => if a = r then d else s.mem a⟩

/-- `df = df.drop(columns=[n])` guarded by presence: the drop returns a
fresh object and the local name is rebound to it; otherwise nothing
happens. -/
def dropRefIfPresent (s : PdState) (d : Nat) (n : String) : PdState × Nat :=
  if (s.mem d).hasColumn n then s.alloc ((s.mem d).dropColumn n) else (s, d)

/-- `df["TotalCharges"] = pd.to_numeric(...)` guarded by presence: an
in-place column update of the object at `d`. -/
def coerceRefIfPresent (s : PdState) (d : Nat) : PdState :=
  if (s.mem d).hasColumn "TotalCharges"
  then s.write d ((s.mem d).mapColumn "TotalCharges" coerceNumeric) else s

/-- Heap-level body of the replace loop: the two successive in-place
`replace` assignments on the object at `d3`, composed. -/
def replaceRefPass (d3 : Nat) (st : PdState) (col : String) : PdState :=
  if (st.mem d3).hasColumn col then st.write d3 (replacePass (st.mem d3) col) else st

/-- Heap-level `clean_data`, statement by statement: `df.copy()` allocates,
each `df = df.drop(...)` rebinds the local name to a fresh object, and each
column assignment mutates the current object in place. -/
@[irreducible] def clean_data_ref (s : PdState) (r : Nat) : PdState × Nat :=
  let p1 := s.alloc (s.mem r)
  let p2 := dropRefIfPresent p1.1 p1.2 "customerID"
  let p3 := dropRefIfPresent p2.1 p2.2 "Churn"
  let s4 := coerceRefIfPresent p3.1 p3.2
  let s5 := replace_cols.foldl (replaceRefPass p3.2) s4
  (s5, p3.2)

/-- Heap-level `predict_batch` (the parts that touch DataFrame objects):
clean the input, score, then `results_df = df.copy()` and two in-place
column appends on that copy. -/
@[irreducible] def predict_batch_ref (model : Pipeline) (s : PdState) (r : Nat) (include_shap : Bool) :
    PdState × Nat × Nat × List ℚ × Option ShapAggregate :=
  let pc := clean_data_ref s r
  let s1 := pc.1
  let dc := pc.2
  let probs := (model.predict_proba (s1.mem dc)).map (fun row => row.getD 1 0)
  let pr := s1.alloc (s1.mem r)
  let s2 := pr.1
  let res := pr.2
  let s3 := s2.write res ((s2.mem res).setColumn "Churn_Probability" (probs.map Value.num))
  let s4 := s3.write res ((s3.mem res).setColumn "Risk_Level"
    (probs.map (fun q => Value.str (if (3 : ℚ)/5 < q then "High" else "Low"))))
  let shap_aggregate :=
    if include_shap then
      let high_risk_mask := probs.map (fun q => decide ((3 : ℚ)/5 < q))
      if high_risk_mask.any id then
        calculate_batch_shap_aggregate model ((s4.mem dc).selectRows high_risk_mask)
      else none
    else none
  (s4, res, dc, probs, shap_aggregate)

/-- A small concrete instance of the modelled artifact, for evaluating the
pipeline at explicit inputs: three encoded features, a per-class explainer
output, constant classifier. -/
def demoPipeline : Pipeline where
  encodedDim := 3
  encode := fun df => (List.range df.nrows).map (fun _ => [0, 0, 0])
  proba := fun _ => 17/20
  baseline := 1/4
  shapRow := fun _ => [1/10, 1/5, 3/10]
  shapOutput := fun X => .perClass [X.map (fun _ => [0, 0, 0]), X.map (fun _ => [1/10, 1/5, 3/10])]
  encode_length := by intro df; simp
  shapRow_length := by intro x; simp
  shap_additive := by intro x; norm_num
  shapOutput_select := by intro X; rfl

/-- A concrete raw customer record with two canonical columns. -/
def demoRecord : List (String × Value) :=
  [("Contract", Value.str "Month-to-month"), ("tenure", Value.num 5)]

/-- A concrete two-row batch frame. -/
def demoBatchDF : DataFrame := ⟨[("tenure", [Value.num 1, Value.num 2])]⟩

/-! ## Helper lemmas: DataFrame column operations -/

namespace DataFrame

theorem dropColumn_of_hasColumn_eq_false {df : DataFrame} {n : String}
    (h : df.hasColumn n = false) : df.dropColumn n = df := by
  cases df with
  | mk cols =>
    simp only [hasColumn, List.any_eq_false] at h
    simp only [dropColumn, mk.injEq]
    apply List.filter_eq_self.mpr
    intro c hc
    simpa using h c hc

theorem ite_dropColumn (df : DataFrame) (n : String) :
    (if df.hasColumn n then df.dropColumn n else df) = df.dropColumn n := by
  by_cases h : df.hasColumn n
  · simp [h]
  · simp only [Bool.not_eq_true] at h
    simp [h, dropColumn_of_hasColumn_eq_false h]

theorem mapColumn_of_hasColumn_eq_false {df : DataFrame} {n : String}
    {f : Value → Value} (h : df.hasColumn n = false) : df.mapColumn n f = df := by
  cases df with
  | mk cols =>
    simp only [hasColumn, List.any_eq_false] at h
    simp only [mapColumn, mk.injEq]
    induction cols with
    | nil => simp
    | cons c cs ih =>
      have hc : ¬(c.1 = n) := by simpa using h c (by simp)
      simp only [List.map_cons, if_neg hc, List.cons.injEq, true_and]
      exact ih (fun x hx => h x (List.mem_cons_of_mem c hx))

theorem ite_mapColumn (df : DataFrame) (n : String) (f : Value → Value) :
    (if df.hasColumn n then df.mapColumn n f else df) = df.mapColumn n f := by
  by_cases h : df.hasColumn n
  · simp [h]
  · simp only [Bool.not_eq_true] at h
    simp [h, mapColumn_of_hasColumn_eq_false h]

theorem hasColumn_mapColumn (df : DataFrame) (m n : String) (f : Value → Value) :
    (df.mapColumn n f).hasColumn m = df.hasColumn m := by
  cases df with
  | mk cols =>
    simp only [hasColumn, mapColumn]
    induction cols with
    | nil => simp
    | cons c cs ih =>
      by_cases h : c.1 = n <;> simp [h, List.any_cons, ih]

theorem dropColumn_mapColumn (df : DataFrame) (m n : String) (f : Value → Value) :
    (df.mapColumn n f).dropColumn m = (df.dropColumn m).mapColumn n f := by
  cases df with
  | mk cols =>
    simp only [mapColumn, dropColumn, mk.injEq, List.filter_map]
    congr 1
    apply List.filter_congr
    intro c _
    by_cases h : c.1 = n <;> simp [h, Function.comp]

theorem dropColumn_dropColumn_self (df : DataFrame) (n : String) :
    (df.dropColumn n).dropColumn n = df.dropColumn n := by
  cases df with
  | mk cols =>
    simp only [dropColumn, mk.injEq, List.filter_filter, Bool.and_self]

theorem dropColumn_comm (df : DataFrame) (m n : String) :
    (df.dropColumn n).dropColumn m = (df.dropColumn m).dropColumn n := by
  cases df with
  | mk cols =>
    simp only [dropColumn, mk.injEq, List.filter_filter]
    congr 1
    funext c
    exact Bool.and_comm _ _

theorem mapColumn_mapColumn_self (df : DataFrame) (n : String) (f g : Value → Value) :
    (df.mapColumn n g).mapColumn n f = df.mapColumn n (fun v => f (g v)) := by
  cases df with
  | mk cols =>
    simp only [mapColumn, mk.injEq, List.map_map]
    apply List.map_congr_left
    intro c _
    by_cases h : c.1 = n <;> simp [h, Function.comp]

theorem mapColumn_comm_of_ne (df : DataFrame) {m n : String} (hmn : n ≠ m)
    (f g : Value → Value) :
    (df.mapColumn m g).mapColumn n f = (df.mapColumn n f).mapColumn m g := by
  cases df with
  | mk cols =>
    simp only [mapColumn, mk.injEq, List.map_map]
    apply List.map_congr_left
    intro c _
    by_cases h : c.1 = m <;> by_cases h2 : c.1 = n <;>
      simp_all [Function.comp]

theorem mapColumn_congr (df : DataFrame) (n : String) {f g : Value → Value}
    (h : ∀ v, f v = g v) : df.mapColumn n f = df.mapColumn n g := by
  cases df with
  | mk cols =>
    simp only [mapColumn, mk.injEq]
    apply List.map_congr_left
    intro c _
    by_cases hc : c.1 = n <;> simp [hc, List.map_congr_left fun v _ => h v]

end DataFrame

/-! ## Helper lemmas: pointwise idempotence of the cleaning transforms -/

theorem coerceNumeric_idem (v : Value) :
    coerceNumeric (coerceNumeric v) = coerceNumeric v := by
  unfold coerceNumeric
  cases h : v.toParsedNum with
  | none => rfl
  | some q => rfl

theorem replaceValue_pair_idem (v : Value) :
    replaceValue "No phone service" (replaceValue "No internet service"
      (replaceValue "No phone service" (replaceValue "No internet service" v))) =
    replaceValue "No phone service" (replaceValue "No internet service" v) := by
  unfold replaceValue
  split_ifs <;> simp_all

/-! ## Helper lemmas: the replace loop -/

theorem replacePass_of_hasColumn_eq_false {d : DataFrame} {c : String}
    (h : d.hasColumn c = false) : replacePass d c = d := by
  unfold replacePass
  rw [DataFrame.mapColumn_of_hasColumn_eq_false h,
      DataFrame.mapColumn_of_hasColumn_eq_false h]

theorem ite_replacePass (d : DataFrame) (c : String) :
    (if d.hasColumn c then replacePass d c else d) = replacePass d c := by
  by_cases h : d.hasColumn c
  · simp [h]
  · simp only [Bool.not_eq_true] at h
    simp [h, replacePass_of_hasColumn_eq_false h]

theorem foldl_replacePass_guard (l : List String) (df : DataFrame) :
    l.foldl (fun d col => if d.hasColumn col then replacePass d col else d) df =
    l.foldl replacePass df := by
  induction l generalizing df with
  | nil => rfl
  | cons c cs ih => simp only [List.foldl_cons, ite_replacePass, ih]

/-- `clean_data` with the presence guards eliminated: dropping or mapping an
absent column is the identity, so each guard is redundant. -/
theorem clean_data_eq (df : DataFrame) :
    clean_data df =
      replace_cols.foldl replacePass
        (((df.dropColumn "customerID").dropColumn "Churn").mapColumn "TotalCharges"
          coerceNumeric) := by
  simp only [clean_data, DataFrame.ite_dropColumn, DataFrame.ite_mapColumn,
    foldl_replacePass_guard]

theorem dropColumn_foldl (l : List String) (df : DataFrame) (m : String) :
    (l.foldl replacePass df).dropColumn m = l.foldl replacePass (df.dropColumn m) := by
  induction l generalizing df with
  | nil => rfl
  | cons c cs ih =>
    simp only [List.foldl_cons]
    rw [ih]
    congr 1
    unfold replacePass
    rw [DataFrame.dropColumn_mapColumn, DataFrame.dropColumn_mapColumn]

theorem mapColumn_replacePass {c m : String} (h : m ≠ c) (d : DataFrame)
    (f : Value → Value) :
    (replacePass d c).mapColumn m f = replacePass (d.mapColumn m f) c := by
  unfold replacePass
  rw [DataFrame.mapColumn_comm_of_ne _ h, DataFrame.mapColumn_comm_of_ne _ h]

theorem mapColumn_foldl_of_not_mem (l : List String) (df : DataFrame) {m : String}
    (hm : m ∉ l) (f : Value → Value) :
    (l.foldl replacePass df).mapColumn m f = l.foldl replacePass (df.mapColumn m f) := by
  induction l generalizing df with
  | nil => rfl
  | cons c cs ih =>
    simp only [List.foldl_cons]
    have hmc : m ≠ c := fun h => hm (h ▸ List.mem_cons_self c cs)
    have hmcs : m ∉ cs := fun h => hm (List.mem_cons_of_mem c h)
    rw [ih _ hmcs, mapColumn_replacePass hmc]

theorem replacePass_replacePass (d : DataFrame) (c : String) :
    replacePass (replacePass d c) c = replacePass d c := by
  unfold replacePass
  simp only [DataFrame.mapColumn_mapColumn_self]
  exact DataFrame.mapColumn_congr d c (fun v => replaceValue_pair_idem v)

theorem replacePass_comm (d : DataFrame) {c c2 : String} (h : c ≠ c2) :
    replacePass (replacePass d c2) c = replacePass (replacePass d c) c2 := by
  have h1 : replacePass (replacePass d c2) c
      = ((replacePass d c2).mapColumn c (replaceValue "No internet service")).mapColumn c
          (replaceValue "No phone service") := rfl
  rw [h1, mapColumn_replacePass h, mapColumn_replacePass h]
  rfl

theorem replacePass_foldl (l : List String) (d : DataFrame) {c : String} (hc : c ∉ l) :
    replacePass (l.foldl replacePass d) c = l.foldl replacePass (replacePass d c) := by
  induction l generalizing d with
  | nil => rfl
  | cons c2 cs ih =>
    simp only [List.foldl_cons]
    have h1 : c ≠ c2 := fun h => hc (h ▸ List.mem_cons_self c2 cs)
    have h2 : c ∉ cs := fun h => hc (List.mem_cons_of_mem c2 h)
    rw [ih _ h2, replacePass_comm _ h1]

theorem foldl_replacePass_idem (l : List String) (hl : l.Nodup) (d : DataFrame) :
    l.foldl replacePass (l.foldl replacePass d) = l.foldl replacePass d := by
  induction l generalizing d with
  | nil => rfl
  | cons c cs ih =>
    simp only [List.foldl_cons]
    have hcs : c ∉ cs := (List.nodup_cons.mp hl).1
    have hnd : cs.Nodup := (List.nodup_cons.mp hl).2
    rw [replacePass_foldl cs _ hcs, replacePass_replacePass, ih hnd]

/-- **C3**: normalization is idempotent — applying `clean_data` twice yields
exactly the same frame as applying it once, for every input frame. -/
theorem clean_data_idem (df : DataFrame) :
    clean_data (clean_data df) = clean_data df := by
  have htc : "TotalCharges" ∉ replace_cols := by decide
  have hnd : replace_cols.Nodup := by decide
  rw [clean_data_eq df, clean_data_eq]
  set z := ((df.dropColumn "customerID").dropColumn "Churn").mapColumn "TotalCharges"
    coerceNumeric with hz
  have hz2 : ((df.dropColumn "customerID").dropColumn "Churn").mapColumn "TotalCharges"
      (fun v => coerceNumeric (coerceNumeric v)) = z := by
    rw [hz]
    exact DataFrame.mapColumn_congr _ _ (fun v => coerceNumeric_idem v)
  have hd1 : (replace_cols.foldl replacePass z).dropColumn "customerID"
      = replace_cols.foldl replacePass z := by
    rw [dropColumn_foldl, hz, DataFrame.dropColumn_mapColumn, DataFrame.dropColumn_comm,
        DataFrame.dropColumn_dropColumn_self]
  have hd2 : (replace_cols.foldl replacePass z).dropColumn "Churn"
      = replace_cols.foldl replacePass z := by
    rw [dropColumn_foldl, hz, DataFrame.dropColumn_mapColumn,
        DataFrame.dropColumn_dropColumn_self]
  have hm : (replace_cols.foldl replacePass z).mapColumn "TotalCharges" coerceNumeric
      = replace_cols.foldl replacePass z := by
    rw [mapColumn_foldl_of_not_mem _ _ htc, hz, DataFrame.mapColumn_mapColumn_self, hz2]
  rw [hd1, hd2, hm]
  exact foldl_replacePass_idem replace_cols hnd z

/-! ## Helper lemmas: column lookup through the cleaning pipeline -/

namespace DataFrame

theorem getColumn_dropColumn_ne (df : DataFrame) {n m : String} (h : n ≠ m) :
    (df.dropColumn m).getColumn n = df.getColumn n := by
  cases df with
  | mk cols =>
    simp only [dropColumn, getColumn]
    congr 1
    induction cols with
    | nil => rfl
    | cons c cs ih =>
      by_cases hc : c.1 = n
      · have hm : (!(c.1 == m)) = true := by
          have : ¬(c.1 = m) := fun he => h (by rw [← hc]; exact he)
          simp [this]
        rw [List.filter_cons, if_pos hm, List.find?_cons_of_pos _ (by simpa using hc),
            List.find?_cons_of_pos _ (by simpa using hc)]
      · by_cases hm : c.1 = m
        · rw [List.filter_cons, if_neg (by simp [hm]), ih,
              List.find?_cons_of_neg _ (by simpa using hc)]
        · rw [List.filter_cons, if_pos (by simp [hm]),
              List.find?_cons_of_neg _ (by simpa using hc),
              List.find?_cons_of_neg _ (by simpa using hc), ih]

theorem getColumn_mapColumn_self (df : DataFrame) (n : String) (f : Value → Value) :
    (df.mapColumn n f).getColumn n = (df.getColumn n).map (List.map f) := by
  cases df with
  | mk cols =>
    simp only [mapColumn, getColumn]
    induction cols with
    | nil => rfl
    | cons c cs ih =>
      rw [List.map_cons]
      by_cases hc : c.1 = n
      · rw [if_pos hc, List.find?_cons_of_pos _ (by simpa using hc),
            List.find?_cons_of_pos _ (by simpa using hc)]
        rfl
      · rw [if_neg hc, List.find?_cons_of_neg _ (by simpa using hc),
            List.find?_cons_of_neg _ (by simpa using hc), ih]

theorem getColumn_mapColumn_ne (df : DataFrame) {n m : String} (h : n ≠ m)
    (f : Value → Value) : (df.mapColumn m f).getColumn n = df.getColumn n := by
  cases df with
  | mk cols =>
    simp only [mapColumn, getColumn]
    induction cols with
    | nil => rfl
    | cons c cs ih =>
      rw [List.map_cons]
      by_cases hc : c.1 = n
      · have hm : ¬(c.1 = m) := fun he => h (by rw [← hc]; exact he)
        rw [if_neg hm, List.find?_cons_of_pos _ (by simpa using hc),
            List.find?_cons_of_pos _ (by simpa using hc)]
      · by_cases hm : c.1 = m
        · rw [if_pos hm, List.find?_cons_of_neg _ (by simpa using hc),
              List.find?_cons_of_neg _ (by simpa using hc), ih]
        · rw [if_neg hm, List.find?_cons_of_neg _ (by simpa using hc),
              List.find?_cons_of_neg _ (by simpa using hc), ih]

end DataFrame

theorem getColumn_replacePass_ne {n c : String} (h : n ≠ c) (d : DataFrame) :
    (replacePass d c).getColumn n = d.getColumn n := by
  unfold replacePass
  rw [DataFrame.getColumn_mapColumn_ne _ h, DataFrame.getColumn_mapColumn_ne _ h]

theorem getColumn_foldl_replacePass (l : List String) (d : DataFrame) {n : String}
    (h : n ∉ l) : (l.foldl replacePass d).getColumn n = d.getColumn n := by
  induction l generalizing d with
  | nil => rfl
  | cons c cs ih =>
    simp only [List.foldl_cons]
    have h1 : n ≠ c := fun hx => h (hx ▸ List.mem_cons_self c cs)
    have h2 : n ∉ cs := fun hx => h (List.mem_cons_of_mem c hx)
    rw [ih _ h2, getColumn_replacePass_ne h1]

/-- **C6**: for every input table with a `TotalCharges` column, `clean_data`
coerces each of its values to a number — values that fail to parse (such as
the blank string `" "`) become 0 — and never fails. -/
theorem clean_data_totalCharges_coerced (df : DataFrame) (vs : List Value)
    (h : df.getColumn "TotalCharges" = some vs) :
    (clean_data df).getColumn "TotalCharges" = some (vs.map coerceNumeric)
    ∧ (∀ v ∈ vs, ∃ q : ℚ, coerceNumeric v = Value.num q
        ∧ (v.toParsedNum = none → q = 0))
    ∧ coerceNumeric (Value.str " ") = Value.num 0 := by
  refine ⟨?_, ?_, rfl⟩
  · rw [clean_data_eq,
      getColumn_foldl_replacePass replace_cols _ (by decide),
      DataFrame.getColumn_mapColumn_self,
      DataFrame.getColumn_dropColumn_ne _ (by decide),
      DataFrame.getColumn_dropColumn_ne _ (by decide), h]
    rfl
  · intro v _
    unfold coerceNumeric
    cases hp : v.toParsedNum with
    | none => exact ⟨0, rfl, fun _ => rfl⟩
    | some q => exact ⟨q, rfl, fun hn => absurd hn (Option.some_ne_none q)⟩

/-- Witness for C6 at a concrete frame: the blank string coerces to `0`, the
string `"95"` parses to `95`. -/
theorem clean_data_totalCharges_coerced_witness :
    (clean_data ⟨[("TotalCharges", [Value.str " ", Value.str "95"])]⟩).getColumn
      "TotalCharges" = some [Value.num 0, Value.num 95] := by
  have h := (clean_data_totalCharges_coerced
    ⟨[("TotalCharges", [Value.str " ", Value.str "95"])]⟩
    [Value.str " ", Value.str "95"] rfl).1
  rw [h]
  rfl

/-! ## Helper lemmas: row selection by a boolean mask -/

theorem maskFilter_of_all_false {mask : List Bool} (h : ∀ b ∈ mask, b = false)
    (vs : List Value) : DataFrame.maskFilter vs mask = [] := by
  unfold DataFrame.maskFilter
  induction vs generalizing mask with
  | nil => simp
  | cons v vs ih =>
    cases mask with
    | nil => simp
    | cons b bs =>
      have hb : b = false := h b (List.mem_cons_self b bs)
      rw [List.zip_cons_cons, List.filter_cons, if_neg (by simp [hb])]
      exact ih (fun x hx => h x (List.mem_cons_of_mem b hx))

theorem selectRows_isEmpty_of_all_false {mask : List Bool}
    (h : ∀ b ∈ mask, b = false) (df : DataFrame) :
    (df.selectRows mask).isEmpty = true := by
  unfold DataFrame.selectRows DataFrame.isEmpty
  rw [List.all_eq_true]
  intro c hc
  rw [List.mem_map] at hc
  obtain ⟨c2, _, hc2⟩ := hc
  rw [← hc2]
  simp [maskFilter_of_all_false h]

/-- **C7**: when no record's churn probability strictly exceeds 0.6, the
cohort summary is the fixed "very few high-risk customers" sentinel string —
the statistics branch is skipped and no error is possible (the function is
total). -/
theorem analyze_high_risk_group_empty (df_clean : DataFrame) (probs : List ℚ)
    (shap_aggregate : Option ShapAggregate) (h : ∀ q ∈ probs, q ≤ 3/5) :
    analyze_high_risk_group df_clean probs shap_aggregate =
      "Great news! Very few high-risk customers detected." := by
  have hmask : ∀ b ∈ probs.map (fun q => decide ((3 : ℚ)/5 < q)), b = false := by
    intro b hb
    rw [List.mem_map] at hb
    obtain ⟨q, hq, hb2⟩ := hb
    rw [← hb2, decide_eq_false_iff_not]
    exact not_lt.mpr (h q hq)
  unfold analyze_high_risk_group
  rw [if_pos (selectRows_isEmpty_of_all_false hmask df_clean)]

/-- Witness for C7: a concrete two-row frame whose probabilities are 0.5 and
exactly 0.6 (the boundary) yields the sentinel. -/
theorem analyze_high_risk_group_empty_witness :
    analyze_high_risk_group ⟨[("tenure", [Value.num 1, Value.num 2])]⟩ [1/2, 3/5] none =
      "Great news! Very few high-risk customers detected." := by
  apply analyze_high_risk_group_empty
  intro q hq
  rcases List.mem_pair.mp hq with h | h <;> rw [h]
  norm_num

/-! ## Helper lemmas: column assignment and the sentinel string -/

theorem getColumn_setColumn_self (df : DataFrame) (n : String) (vs : List Value) :
    (df.setColumn n vs).getColumn n = some vs := by
  cases df with
  | mk cols =>
    unfold DataFrame.setColumn
    by_cases h : DataFrame.hasColumn ⟨cols⟩ n
    · rw [if_pos h]
      unfold DataFrame.hasColumn at h
      simp only [List.any_eq_true] at h
      simp only [DataFrame.getColumn]
      induction cols with
      | nil => simp at h
      | cons c cs ih =>
        by_cases hc : c.1 = n
        · rw [List.map_cons, if_pos hc, List.find?_cons_of_pos _ (by simpa using hc)]
          rw [hc]
          rfl
        · rw [List.map_cons, if_neg hc, List.find?_cons_of_neg _ (by simpa using hc)]
          apply ih
          rcases h with ⟨c2, hc2, hcn⟩
          rcases List.mem_cons.mp hc2 with he | he
          · subst he
            exact absurd (by simpa using hcn) hc
          · exact ⟨c2, he, hcn⟩
    · rw [if_neg h]
      unfold DataFrame.hasColumn at h
      simp only [Bool.not_eq_true, List.any_eq_false] at h
      simp only [DataFrame.getColumn, List.find?_append]
      have h1 : cols.find? (fun c => c.1 == n) = none := by
        rw [List.find?_eq_none]
        intro c hc
        simpa using h c hc
      rw [h1, List.find?_cons_of_pos _ (by simp)]
      rfl

theorem getColumn_setColumn_ne (df : DataFrame) {n m : String} (h : n ≠ m)
    (vs : List Value) : (df.setColumn m vs).getColumn n = df.getColumn n := by
  cases df with
  | mk cols =>
    unfold DataFrame.setColumn
    by_cases hm : DataFrame.hasColumn ⟨cols⟩ m
    · rw [if_pos hm]
      simp only [DataFrame.getColumn]
      congr 1
      clear hm
      induction cols with
      | nil => rfl
      | cons c cs ih =>
        by_cases hc : c.1 = n
        · have hcm : ¬(c.1 = m) := fun he => h (by rw [← hc]; exact he)
          rw [List.map_cons, if_neg hcm, List.find?_cons_of_pos _ (by simpa using hc),
              List.find?_cons_of_pos _ (by simpa using hc)]
        · by_cases hcm : c.1 = m
          · rw [List.map_cons, if_pos hcm, List.find?_cons_of_neg _ (by simp [hcm, h.symm]),
                List.find?_cons_of_neg _ (by simpa using hc), ih]
          · rw [List.map_cons, if_neg hcm, List.find?_cons_of_neg _ (by simpa using hc),
                List.find?_cons_of_neg _ (by simpa using hc), ih]
    · rw [if_neg hm]
      simp only [DataFrame.getColumn, List.find?_append]
      have h2 : List.find? (fun c => c.1 == n) [(m, vs)] = none := by
        rw [List.find?_eq_none]
        intro c hc
        rcases List.mem_singleton.mp hc with rfl
        simpa using h.symm
      rw [h2]
      cases List.find? (fun c => c.1 == n) cols <;> rfl

/-- Any string whose first character is a newline differs from the sentinel. -/
theorem head_newline_ne_sentinel (x : String) (hx : x.data.head? = some '\n') :
    x ≠ "Great news! Very few high-risk customers detected." := by
  intro h
  rw [h] at hx
  exact absurd hx (by decide)

theorem data_head_append {c : Char} (x y : String) (hx : x.data.head? = some c) :
    (x ++ y).data.head? = some c := by
  rw [String.data_append]
  cases hd : x.data with
  | nil => rw [hd] at hx; cases hx
  | cons a as =>
    rw [hd] at hx
    simp only [List.head?_cons, Option.some.injEq] at hx
    simp [hx]

/-- **C4**: in a scored batch the appended `Risk_Level` entry is `"High"` iff
the row's churn probability strictly exceeds 0.6 and `"Low"` otherwise — in
particular a probability of exactly 0.6 is tiered `"Low"` — and both the
SHAP aggregation subset inside `predict_batch` and the sentinel/statistics
split of `analyze_high_risk_group` are driven by the same strict mask. -/
theorem risk_tier_strict_threshold (model : Pipeline) (df : DataFrame)
    (include_shap : Bool) :
    ((predict_batch model df include_shap).1.getColumn "Risk_Level"
        = some (((predict_batch model df include_shap).2.2.1).map
            (fun q => Value.str (if (3 : ℚ)/5 < q then "High" else "Low"))))
    ∧ (∀ i : Nat, ∀ q : ℚ, ((predict_batch model df include_shap).2.2.1)[i]? = some q →
        ((((predict_batch model df include_shap).1.getColumn "Risk_Level").getD [])[i]?
            = some (Value.str "High") ↔ (3 : ℚ)/5 < q))
    ∧ (∀ i : Nat, ∀ q : ℚ, ((predict_batch model df include_shap).2.2.1)[i]? = some q →
        q = 3/5 →
        (((predict_batch model df include_shap).1.getColumn "Risk_Level").getD [])[i]?
            = some (Value.str "Low"))
    ∧ ((predict_batch model df include_shap).2.2.2
        = if include_shap then
            (if ((predict_batch model df include_shap).2.2.1).any
                  (fun q => decide ((3 : ℚ)/5 < q)) then
              calculate_batch_shap_aggregate model
                ((clean_data df).selectRows
                  (((predict_batch model df include_shap).2.2.1).map
                    (fun q => decide ((3 : ℚ)/5 < q))))
            else none)
          else none)
    ∧ (∀ agg : Option ShapAggregate,
        analyze_high_risk_group (clean_data df)
            ((predict_batch model df include_shap).2.2.1) agg
          = "Great news! Very few high-risk customers detected."
        ↔ ((clean_data df).selectRows (((predict_batch model df include_shap).2.2.1).map
            (fun q => decide ((3 : ℚ)/5 < q)))).isEmpty = true) := by
  have hres : (predict_batch model df include_shap).1
      = (df.setColumn "Churn_Probability"
          (((predict_batch model df include_shap).2.2.1).map Value.num)).setColumn
          "Risk_Level" (((predict_batch model df include_shap).2.2.1).map
            (fun q => Value.str (if (3 : ℚ)/5 < q then "High" else "Low"))) := rfl
  have ha : (predict_batch model df include_shap).1.getColumn "Risk_Level"
      = some (((predict_batch model df include_shap).2.2.1).map
          (fun q => Value.str (if (3 : ℚ)/5 < q then "High" else "Low"))) := by
    rw [hres, getColumn_setColumn_self]
  refine ⟨ha, ?_, ?_, ?_, ?_⟩
  · intro i q hq
    rw [ha]
    simp only [Option.getD_some, List.getElem?_map, hq, Option.map_some']
    by_cases hlt : (3 : ℚ)/5 < q
    · simp [hlt]
    · simp only [if_neg hlt, Option.some.injEq, Value.str.injEq]
      constructor
      · intro h2
        exact absurd h2 (by decide)
      · intro h2
        exact absurd h2 hlt
  · intro i q hq hq6
    rw [ha]
    simp only [Option.getD_some, List.getElem?_map, hq, Option.map_some']
    rw [hq6, if_neg (lt_irrefl ((3 : ℚ)/5))]
  · have hagg : (predict_batch model df include_shap).2.2.2
        = if include_shap then
            (if (((predict_batch model df include_shap).2.2.1).map
                  (fun q => decide ((3 : ℚ)/5 < q))).any id then
              calculate_batch_shap_aggregate model
                ((clean_data df).selectRows
                  (((predict_batch model df include_shap).2.2.1).map
                    (fun q => decide ((3 : ℚ)/5 < q))))
            else none)
          else none := rfl
    rw [hagg]
    have h3 : ∀ (l : List ℚ) (f : ℚ → Bool), (l.map f).any id = l.any f := by
      intro l f
      induction l with
      | nil => rfl
      | cons x xs ih => simp [List.any_cons, ih]
    rw [h3]
  · intro agg
    constructor
    · intro hSent
      by_contra hne
      simp only [Bool.not_eq_true] at hne
      simp only [analyze_high_risk_group] at hSent
      rw [if_neg (by simp [hne])] at hSent
      revert hSent
      apply head_newline_ne_sentinel
      repeat apply data_head_append
      rfl
    · intro hEmpty
      simp only [analyze_high_risk_group]
      rw [if_pos hEmpty]

/-- Witness for C4 at a concrete pipeline and batch: the first row's
probability is 17/20 and its tier is `"High"` iff 3/5 < 17/20. -/
theorem risk_tier_strict_threshold_witness :
    ((((predict_batch demoPipeline demoBatchDF true).1.getColumn "Risk_Level").getD [])[0]?
        = some (Value.str "High") ↔ (3 : ℚ)/5 < 17/20) :=
  (risk_tier_strict_threshold demoPipeline demoBatchDF true).2.1 0 (17/20) rfl

/-! ## Helper lemmas: every column of a single-record frame has one cell -/

theorem colLen_dropColumn {df : DataFrame} {n : String}
    (h : ∀ c ∈ df.cols, c.2.length = 1) :
    ∀ c ∈ (df.dropColumn n).cols, c.2.length = 1 :=
  fun c hc => h c (List.mem_of_mem_filter hc)

theorem colLen_mapColumn {df : DataFrame} {n : String} {f : Value → Value}
    (h : ∀ c ∈ df.cols, c.2.length = 1) :
    ∀ c ∈ (df.mapColumn n f).cols, c.2.length = 1 := by
  intro c hc
  obtain ⟨c2, hc2, he⟩ := List.mem_map.mp hc
  by_cases h2 : c2.1 = n
  · rw [← he, if_pos h2]
    simpa using h c2 hc2
  · rw [← he, if_neg h2]
    exact h c2 hc2

theorem colLen_replacePass {d : DataFrame} {col : String}
    (h : ∀ c ∈ d.cols, c.2.length = 1) :
    ∀ c ∈ (replacePass d col).cols, c.2.length = 1 :=
  colLen_mapColumn (colLen_mapColumn h)

theorem colLen_foldl_replacePass (l : List String) {d : DataFrame}
    (h : ∀ c ∈ d.cols, c.2.length = 1) :
    ∀ c ∈ (l.foldl replacePass d).cols, c.2.length = 1 := by
  induction l generalizing d with
  | nil => exact h
  | cons c cs ih =>
    rw [List.foldl_cons]
    exact ih (colLen_replacePass h)

theorem colLen_clean_data {df : DataFrame} (h : ∀ c ∈ df.cols, c.2.length = 1) :
    ∀ c ∈ (clean_data df).cols, c.2.length = 1 := by
  rw [clean_data_eq]
  exact colLen_foldl_replacePass replace_cols
    (colLen_mapColumn (colLen_dropColumn (colLen_dropColumn h)))

theorem nrows_le_one {df : DataFrame} (h : ∀ c ∈ df.cols, c.2.length = 1) :
    df.nrows ≤ 1 := by
  cases df with
  | mk cols =>
    cases cols with
    | nil => exact Nat.zero_le 1
    | cons c cs =>
      have h1 := h c (List.mem_cons_self c cs)
      show c.2.length ≤ 1
      omega

theorem ofRecord_colLen (customer_data : List (String × Value)) :
    ∀ c ∈ (DataFrame.ofRecord customer_data).cols, c.2.length = 1 := by
  intro c hc
  obtain ⟨kv, _, he⟩ := List.mem_map.mp hc
  rw [← he]
  rfl

set_option maxHeartbeats 1000000 in
/-- **C5**: `predict_single` returns label 1 iff its returned churn
probability strictly exceeds 0.5; a record with probability exactly 0.5
gets label 0 (the label is the spec-modelled classifier output, which the
service passes through untouched). -/
theorem predict_single_label (model : Pipeline) (customer_data : List (String × Value))
    (out : SingleResult) (h : predict_single model customer_data = some out) :
    (out.prediction = 1 ↔ 1/2 < out.churn_probability)
    ∧ (out.churn_probability = 1/2 → out.prediction = 0) := by
  rcases hx : (model.encode (clean_data (DataFrame.ofRecord customer_data)))[0]? with _ | x
  · simp only [predict_single] at h
    simp only [Pipeline.predict, Pipeline.predict_proba] at h
    simp only [List.getElem?_map] at h
    simp only [hx] at h
    simp only [Option.map_none', Option.none_bind] at h
    exact Option.noConfusion h
  · have h1 : ([1 - model.proba x, model.proba x] : List ℚ)[1]? = some (model.proba x) := rfl
    have hcs : calculate_shap_values model (clean_data (DataFrame.ofRecord customer_data))
        = some (((model.encode (clean_data (DataFrame.ofRecord customer_data))).map
            model.shapRow).flatten,
          (clean_data (DataFrame.ofRecord customer_data)).columnNames) := by
      simp only [calculate_shap_values, model.shapOutput_select]
    simp only [predict_single] at h
    simp only [Pipeline.predict, Pipeline.predict_proba] at h
    simp only [List.getElem?_map] at h
    simp only [hx] at h
    simp only [Option.map_some', Option.some_bind] at h
    rw [h1] at h
    simp only [Option.some_bind] at h
    rw [hcs] at h
    simp only [Option.map_some'] at h
    rw [Option.some.injEq] at h
    rw [← h]
    constructor
    · show (if 1/2 < model.proba x then 1 else 0) = 1 ↔ 1/2 < model.proba x
      by_cases hlt : 1/2 < model.proba x
      · simp [hlt]
      · simp [hlt]
    · intro hpe
      have hp5 : model.proba x = 1/2 := hpe
      show (if 1/2 < model.proba x then 1 else 0) = 0
      rw [if_neg (by rw [hp5]; exact lt_irrefl _)]

/-- Witness for C5 at the demo pipeline and record (probability 17/20). -/
theorem predict_single_label_witness :
    ((if (1 : ℚ)/2 < 17/20 then 1 else 0) = 1 ↔ (1 : ℚ)/2 < 17/20)
    ∧ ((17 : ℚ)/20 = 1/2 → (if (1 : ℚ)/2 < 17/20 then 1 else 0) = 0) :=
  predict_single_label demoPipeline demoRecord
    ⟨if (1 : ℚ)/2 < 17/20 then 1 else 0, 17/20,
      [1/10, 1/5, 3/10], ["Contract", "tenure"]⟩ rfl

set_option maxHeartbeats 1000000 in
/-- **C2**: for every record accepted by `predict_single`, the returned SHAP
values sum to the returned churn probability minus the explainer's fixed
baseline, within the 1e-4 tolerance (here the difference is exactly 0). -/
theorem predict_single_additivity (model : Pipeline)
    (customer_data : List (String × Value)) (out : SingleResult)
    (h : predict_single model customer_data = some out) :
    |out.shap_values.sum - (out.churn_probability - model.baseline)| ≤ 1/10000 := by
  rcases hx : (model.encode (clean_data (DataFrame.ofRecord customer_data)))[0]? with _ | x
  · simp only [predict_single] at h
    simp only [Pipeline.predict, Pipeline.predict_proba] at h
    simp only [List.getElem?_map] at h
    simp only [hx] at h
    simp only [Option.map_none', Option.none_bind] at h
    exact Option.noConfusion h
  · have h1 : ([1 - model.proba x, model.proba x] : List ℚ)[1]? = some (model.proba x) := rfl
    have hcs : calculate_shap_values model (clean_data (DataFrame.ofRecord customer_data))
        = some (((model.encode (clean_data (DataFrame.ofRecord customer_data))).map
            model.shapRow).flatten,
          (clean_data (DataFrame.ofRecord customer_data)).columnNames) := by
      simp only [calculate_shap_values, model.shapOutput_select]
    simp only [predict_single] at h
    simp only [Pipeline.predict, Pipeline.predict_proba] at h
    simp only [List.getElem?_map] at h
    simp only [hx] at h
    simp only [Option.map_some', Option.some_bind] at h
    rw [h1] at h
    simp only [Option.some_bind] at h
    rw [hcs] at h
    simp only [Option.map_some'] at h
    rw [Option.some.injEq] at h
    -- the encoded matrix has exactly one row
    have hlen : (model.encode (clean_data (DataFrame.ofRecord customer_data))).length ≤ 1 := by
      rw [model.encode_length (clean_data (DataFrame.ofRecord customer_data))]
      exact nrows_le_one (colLen_clean_data (ofRecord_colLen customer_data))
    have hX : model.encode (clean_data (DataFrame.ofRecord customer_data)) = [x] := by
      cases hE : model.encode (clean_data (DataFrame.ofRecord customer_data)) with
      | nil => rw [hE] at hx; cases hx
      | cons y ys =>
        rw [hE] at hx
        have hy : y = x := by simpa using hx
        have : ys = [] := by
          rw [hE] at hlen
          simpa using List.length_eq_zero.mp (by simpa using hlen)
        rw [hy, this]
    rw [← h]
    show |(((model.encode (clean_data (DataFrame.ofRecord customer_data))).map
        model.shapRow).flatten).sum - (model.proba x - model.baseline)| ≤ 1/10000
    rw [hX]
    simp only [List.map_cons, List.map_nil, List.flatten_cons, List.flatten_nil,
      List.append_nil]
    rw [model.shap_additive x]
    simp

/-- Witness for C2 at the demo pipeline and record: the three contributions
sum to the probability minus the baseline. -/
theorem predict_single_additivity_witness :
    |([(1 : ℚ)/10, 1/5, 3/10] : List ℚ).sum - ((17 : ℚ)/20 - demoPipeline.baseline)|
      ≤ 1/10000 :=
  predict_single_additivity demoPipeline demoRecord
    ⟨if (1 : ℚ)/2 < 17/20 then 1 else 0, 17/20,
      [1/10, 1/5, 3/10], ["Contract", "tenure"]⟩ rfl

/-- **C1** (failing input): at a pipeline whose encoder expands the 2 raw
columns into 3 encoded features, `predict_single` returns 3 SHAP values —
one per encoded feature — but only the 2 raw cleaned-column names, because
`calculate_shap_values` reads `feature_names` off the *pre-encoding* frame.
The lists differ in length, so `shap_values[i]` cannot correspond to
`feature_names[i]` and the names do not identify the encoded feature
space. -/
theorem shap_names_raw_not_encoded :
    (predict_single demoPipeline demoRecord).map
        (fun o => (o.shap_values.length, o.feature_names.length)) = some (3, 2)
    ∧ demoPipeline.encodedDim = 3
    ∧ (clean_data (DataFrame.ofRecord demoRecord)).columnNames = ["Contract", "tenure"] :=
  ⟨rfl, rfl, rfl⟩

/-! ## Helper lemmas: stable sorting -/

theorem pair_getElem_sublist {α : Type} (l : List α) (i j : Nat) (hij : i < j)
    (hj : j < l.length) :
    List.Sublist [l.get ⟨i, lt_trans hij hj⟩, l.get ⟨j, hj⟩] l := by
  have hi : i < l.length := lt_trans hij hj
  have hdj : List.Sublist (l.drop j) (l.drop (i + 1)) := by
    have h0 := List.drop_sublist (j - i - 1) (l.drop (i + 1))
    rwa [List.drop_drop, (by omega : i + 1 + (j - i - 1) = j)] at h0
  have h2 : List.Sublist [l.get ⟨j, hj⟩] (l.drop (i + 1)) := by
    apply List.Sublist.trans _ hdj
    rw [List.drop_eq_getElem_cons hj, List.get_eq_getElem]
    exact (List.nil_sublist _).cons₂ _
  have h3 : List.Sublist [l.get ⟨i, hi⟩, l.get ⟨j, hj⟩]
      (l.get ⟨i, hi⟩ :: l.drop (i + 1)) := h2.cons₂ _
  have h4 : l.get ⟨i, hi⟩ :: l.drop (i + 1) = l.drop i := by
    rw [List.get_eq_getElem]
    exact (List.drop_eq_getElem_cons hi).symm
  rw [h4] at h3
  exact h3.trans (List.drop_sublist i l)

/-- **C8**: `get_top_features` is deterministic; its output is ordered by
descending absolute contribution; it is the `top_n`-prefix of the full
ranking; and on equal absolute values the full ranking preserves the
original index order (stability of Python's `list.sort`). -/
theorem get_top_features_spec (shap_values : List ℚ) (feature_names : List String)
    (top_n : Nat) :
    (get_top_features shap_values feature_names top_n
      = get_top_features shap_values feature_names top_n)
    ∧ (get_top_features shap_values feature_names top_n).Pairwise
        (fun a b => |b.2| ≤ |a.2|)
    ∧ get_top_features shap_values feature_names top_n
      = (get_top_features shap_values feature_names
          (feature_names.zip shap_values).length).take top_n
    ∧ ∀ i j : Nat, ∀ hij : i < j, ∀ hj : j < (feature_names.zip shap_values).length,
        |((feature_names.zip shap_values).get ⟨i, lt_trans hij hj⟩).2|
          = |((feature_names.zip shap_values).get ⟨j, hj⟩).2| →
        List.Sublist
          [(feature_names.zip shap_values).get ⟨i, lt_trans hij hj⟩,
           (feature_names.zip shap_values).get ⟨j, hj⟩]
          (get_top_features shap_values feature_names
            (feature_names.zip shap_values).length) := by
  have htrans : ∀ a b c : String × ℚ, decide (|b.2| ≤ |a.2|) = true →
      decide (|c.2| ≤ |b.2|) = true → decide (|c.2| ≤ |a.2|) = true := by
    intro a b c h1 h2
    rw [decide_eq_true_eq] at h1 h2 ⊢
    exact le_trans h2 h1
  have htotal : ∀ a b : String × ℚ,
      (decide (|b.2| ≤ |a.2|) || decide (|a.2| ≤ |b.2|)) = true := by
    intro a b
    rcases le_total |b.2| |a.2| with h | h <;> simp [h]
  have hfull : get_top_features shap_values feature_names
      (feature_names.zip shap_values).length
      = (feature_names.zip shap_values).mergeSort
          (fun a b => decide (|b.2| ≤ |a.2|)) := by
    unfold get_top_features
    rw [show (feature_names.zip shap_values).length
        = ((feature_names.zip shap_values).mergeSort
            (fun a b => decide (|b.2| ≤ |a.2|))).length from
        (List.length_mergeSort _).symm, List.take_length]
  refine ⟨rfl, ?_, ?_, ?_⟩
  · have hsorted := List.sorted_mergeSort htrans htotal (feature_names.zip shap_values)
    have hprop : ((feature_names.zip shap_values).mergeSort
        (fun a b => decide (|b.2| ≤ |a.2|))).Pairwise (fun a b => |b.2| ≤ |a.2|) :=
      hsorted.imp (fun h => decide_eq_true_eq.mp h)
    exact hprop.sublist (List.take_sublist _ _)
  · rw [hfull]
    rfl
  · intro i j hij hj heq
    rw [hfull]
    apply List.pair_sublist_mergeSort htrans htotal
    · rw [decide_eq_true_eq, heq]
    · exact pair_getElem_sublist _ i j hij hj

/-- Witness for C8: in `[("a", 2), ("b", -1), ("c", 1)]` the tied entries
`("b", -1)` and `("c", 1)` keep their original relative order in the full
ranking. -/
theorem get_top_features_spec_witness :
    List.Sublist [("b", (-1 : ℚ)), ("c", 1)] (get_top_features [2, -1, 1] ["a", "b", "c"] 3) :=
  (get_top_features_spec [2, -1, 1] ["a", "b", "c"] 3).2.2.2 1 2 (by decide) (by decide)
    (show |(-1 : ℚ)| = |(1 : ℚ)| by norm_num)

/-! ## C9: the batch SHAP aggregate -/

theorem absDesc_trans : ∀ a b c : String × ℚ, decide (|b.2| ≤ |a.2|) = true →
    decide (|c.2| ≤ |b.2|) = true → decide (|c.2| ≤ |a.2|) = true := by
  intro a b c h1 h2
  rw [decide_eq_true_eq] at h1 h2 ⊢
  exact le_trans h2 h1

theorem absDesc_total : ∀ a b : String × ℚ,
    (decide (|b.2| ≤ |a.2|) || decide (|a.2| ≤ |b.2|)) = true := by
  intro a b
  rcases le_total |b.2| |a.2| with h | h <;> simp [h]

/-- **C9**: a successful batch SHAP aggregate reduces the per-row
decompositions of its input frame to the per-feature mean of absolute
contributions; its ranked list is the 10-prefix of the stable descending
sort of `(name, mean)` pairs, hence has at most 10 entries, is sorted by
descending mean, and preserves original feature order on ties; and
`predict_batch` only ever computes it over the strict high-risk row
subset of the cleaned frame. -/
theorem calculate_batch_shap_aggregate_spec (model : Pipeline) (hr : DataFrame)
    (agg : ShapAggregate) (h : calculate_batch_shap_aggregate model hr = some agg) :
    agg.mean_shap_values = npMeanAbs0 ((model.encode hr).map model.shapRow)
    ∧ agg.top_features
      = ((agg.feature_names.zip agg.mean_shap_values).mergeSort
          (fun a b => decide (|b.2| ≤ |a.2|))).take 10
    ∧ agg.top_features.length ≤ 10
    ∧ agg.top_features.Pairwise (fun a b => |b.2| ≤ |a.2|)
    ∧ (∀ j : Nat, j < agg.mean_shap_values.length →
        agg.mean_shap_values[j]?
          = some (((((model.encode hr).map model.shapRow).map
              (fun row => |row.getD j 0|)).sum
            / (((model.encode hr).map model.shapRow).length : ℚ))))
    ∧ (∀ i j : Nat, ∀ hij : i < j,
        ∀ hj : j < (agg.feature_names.zip agg.mean_shap_values).length,
        |((agg.feature_names.zip agg.mean_shap_values).get ⟨i, lt_trans hij hj⟩).2|
          = |((agg.feature_names.zip agg.mean_shap_values).get ⟨j, hj⟩).2| →
        List.Sublist
          [(agg.feature_names.zip agg.mean_shap_values).get ⟨i, lt_trans hij hj⟩,
           (agg.feature_names.zip agg.mean_shap_values).get ⟨j, hj⟩]
          ((agg.feature_names.zip agg.mean_shap_values).mergeSort
            (fun a b => decide (|b.2| ≤ |a.2|))))
    ∧ (∀ df2 : DataFrame, (predict_batch model df2 true).2.2.2 ≠ none →
        (predict_batch model df2 true).2.2.2
          = calculate_batch_shap_aggregate model
              ((clean_data df2).selectRows (((predict_batch model df2 true).2.2.1).map
                (fun q => decide ((3 : ℚ)/5 < q))))) := by
  by_cases hem : hr.isEmpty
  · simp only [calculate_batch_shap_aggregate, if_pos hem] at h
    exact Option.noConfusion h
  · simp only [calculate_batch_shap_aggregate, if_neg hem,
      model.shapOutput_select] at h
    rw [Option.some.injEq] at h
    rw [← h]
    refine ⟨rfl, rfl, ?_, ?_, ?_, ?_, ?_⟩
    · exact List.length_take_le 10 _
    · have hsorted := List.sorted_mergeSort absDesc_trans absDesc_total
        (hr.columnNames.zip (npMeanAbs0 ((model.encode hr).map model.shapRow)))
      have hprop := hsorted.imp (fun hab => decide_eq_true_eq.mp hab)
      exact hprop.sublist (List.take_sublist _ _)
    · intro j hj
      simp only [npMeanAbs0] at hj ⊢
      rw [List.length_map, List.length_range] at hj
      rw [List.getElem?_map, List.getElem?_range hj]
      rfl
    · intro i j hij hj heq
      apply List.pair_sublist_mergeSort absDesc_trans absDesc_total
      · rw [decide_eq_true_eq, heq]
      · exact pair_getElem_sublist _ i j hij hj
    · intro df2 hne
      have hd : (predict_batch model df2 true).2.2.2
          = if (((predict_batch model df2 true).2.2.1).map
                (fun q => decide ((3 : ℚ)/5 < q))).any id then
              calculate_batch_shap_aggregate model
                ((clean_data df2).selectRows (((predict_batch model df2 true).2.2.1).map
                  (fun q => decide ((3 : ℚ)/5 < q))))
            else none := rfl
      rw [hd] at hne ⊢
      by_cases hany : (((predict_batch model df2 true).2.2.1).map
          (fun q => decide ((3 : ℚ)/5 < q))).any id
      · rw [if_pos hany]
      · rw [if_neg hany] at hne
        exact absurd rfl hne

/-- Witness for C9 at a concrete one-row high-risk frame. -/
theorem calculate_batch_shap_aggregate_spec_witness :
    ((calculate_batch_shap_aggregate demoPipeline
        ⟨[("tenure", [Value.num 1])]⟩).get (by rfl)).top_features.length ≤ 10 :=
  (calculate_batch_shap_aggregate_spec demoPipeline ⟨[("tenure", [Value.num 1])]⟩
    ((calculate_batch_shap_aggregate demoPipeline
        ⟨[("tenure", [Value.num 1])]⟩).get (by rfl))
    (Option.some_get (by rfl)).symm).2.2.1

/-! ## C10: the heap model — clean_data does not mutate its argument -/

theorem PdState.write_mem_self (s : PdState) (r : Nat) (d : DataFrame) :
    (s.write r d).mem r = d := by simp [PdState.write]

theorem PdState.write_mem_ne (s : PdState) {r a : Nat} (d : DataFrame) (h : a ≠ r) :
    (s.write r d).mem a = s.mem a := by simp [PdState.write, h]

theorem PdState.alloc_mem_lt (s : PdState) (d : DataFrame) {a : Nat} (h : a < s.next) :
    (s.alloc d).1.mem a = s.mem a := by
  simp only [PdState.alloc]
  rw [if_neg (by omega)]

theorem PdState.alloc_mem_new (s : PdState) (d : DataFrame) :
    (s.alloc d).1.mem (s.alloc d).2 = d := by simp [PdState.alloc]

theorem PdState.alloc_ref (s : PdState) (d : DataFrame) : (s.alloc d).2 = s.next := rfl

theorem dropRefIfPresent_mem (s : PdState) (d : Nat) (n : String) {a : Nat}
    (h : a < s.next) : (dropRefIfPresent s d n).1.mem a = s.mem a := by
  unfold dropRefIfPresent
  by_cases hc : (s.mem d).hasColumn n
  · rw [if_pos hc]
    exact PdState.alloc_mem_lt s _ h
  · rw [if_neg hc]

theorem dropRefIfPresent_next (s : PdState) (d : Nat) (n : String) :
    s.next ≤ (dropRefIfPresent s d n).1.next := by
  unfold dropRefIfPresent
  by_cases hc : (s.mem d).hasColumn n
  · rw [if_pos hc]
    exact Nat.le_succ _
  · rw [if_neg hc]

theorem dropRefIfPresent_ref_cases (s : PdState) (d : Nat) (n : String) :
    (dropRefIfPresent s d n).2 = d ∨ (dropRefIfPresent s d n).2 = s.next := by
  unfold dropRefIfPresent
  by_cases hc : (s.mem d).hasColumn n
  · rw [if_pos hc]
    exact Or.inr rfl
  · rw [if_neg hc]
    exact Or.inl rfl

theorem dropRefIfPresent_ref_lt (s : PdState) (d : Nat) (n : String) (hd : d < s.next) :
    (dropRefIfPresent s d n).2 < (dropRefIfPresent s d n).1.next := by
  unfold dropRefIfPresent
  by_cases hc : (s.mem d).hasColumn n
  · rw [if_pos hc]
    exact Nat.lt_succ_self _
  · rw [if_neg hc]
    exact hd

theorem dropRefIfPresent_val (s : PdState) (d : Nat) (n : String) :
    (dropRefIfPresent s d n).1.mem (dropRefIfPresent s d n).2
      = (if (s.mem d).hasColumn n then (s.mem d).dropColumn n else s.mem d) := by
  unfold dropRefIfPresent
  by_cases hc : (s.mem d).hasColumn n
  · rw [if_pos hc, if_pos hc]
    exact PdState.alloc_mem_new s _
  · rw [if_neg hc, if_neg hc]

theorem coerceRefIfPresent_mem_ne (s : PdState) (d : Nat) {a : Nat} (h : a ≠ d) :
    (coerceRefIfPresent s d).mem a = s.mem a := by
  unfold coerceRefIfPresent
  by_cases hc : (s.mem d).hasColumn "TotalCharges"
  · rw [if_pos hc, PdState.write_mem_ne _ _ h]
  · rw [if_neg hc]

theorem coerceRefIfPresent_next (s : PdState) (d : Nat) :
    (coerceRefIfPresent s d).next = s.next := by
  unfold coerceRefIfPresent
  by_cases hc : (s.mem d).hasColumn "TotalCharges"
  · rw [if_pos hc]
    rfl
  · rw [if_neg hc]

theorem coerceRefIfPresent_val (s : PdState) (d : Nat) :
    (coerceRefIfPresent s d).mem d
      = (if (s.mem d).hasColumn "TotalCharges"
         then (s.mem d).mapColumn "TotalCharges" coerceNumeric else s.mem d) := by
  unfold coerceRefIfPresent
  by_cases hc : (s.mem d).hasColumn "TotalCharges"
  · rw [if_pos hc, if_pos hc, PdState.write_mem_self]
  · rw [if_neg hc, if_neg hc]

theorem foldl_replaceRefPass_mem_ne (l : List String) (d3 : Nat) (st : PdState)
    {a : Nat} (h : a ≠ d3) :
    (l.foldl (replaceRefPass d3) st).mem a = st.mem a := by
  induction l generalizing st with
  | nil => rfl
  | cons c cs ih =>
    rw [List.foldl_cons, ih]
    unfold replaceRefPass
    by_cases hc : (st.mem d3).hasColumn c
    · rw [if_pos hc, PdState.write_mem_ne _ _ h]
    · rw [if_neg hc]

theorem foldl_replaceRefPass_next (l : List String) (d3 : Nat) (st : PdState) :
    (l.foldl (replaceRefPass d3) st).next = st.next := by
  induction l generalizing st with
  | nil => rfl
  | cons c cs ih =>
    rw [List.foldl_cons, ih]
    unfold replaceRefPass
    by_cases hc : (st.mem d3).hasColumn c
    · rw [if_pos hc]
      rfl
    · rw [if_neg hc]

theorem foldl_replaceRefPass_mem_self (l : List String) (d3 : Nat) (st : PdState) :
    (l.foldl (replaceRefPass d3) st).mem d3
      = l.foldl (fun d col => if d.hasColumn col then replacePass d col else d)
          (st.mem d3) := by
  induction l generalizing st with
  | nil => rfl
  | cons c cs ih =>
    rw [List.foldl_cons, List.foldl_cons, ih]
    congr 1
    unfold replaceRefPass
    by_cases hc : (st.mem d3).hasColumn c
    · rw [if_pos hc, if_pos hc, PdState.write_mem_self]
    · rw [if_neg hc, if_neg hc]

set_option maxHeartbeats 2000000 in
/-- **C10**: on the heap model, `clean_data` never mutates its argument — the
caller's object is unchanged, the returned reference is fresh (allocated at
or above the old frontier, hence distinct from the argument) and holds the
pure `clean_data` of the argument's value; consequently `predict_batch`
leaves the original untouched and builds its augmented output from a fresh
copy of the untouched original table plus the two appended columns. -/
theorem clean_data_ref_frame (s : PdState) (r : Nat) (h : r < s.next) :
    (clean_data_ref s r).1.mem r = s.mem r
    ∧ s.next ≤ (clean_data_ref s r).2
    ∧ (clean_data_ref s r).2 ≠ r
    ∧ (clean_data_ref s r).1.mem (clean_data_ref s r).2 = clean_data (s.mem r)
    ∧ (∀ (model : Pipeline) (include_shap : Bool),
        (predict_batch_ref model s r include_shap).1.mem r = s.mem r
        ∧ (predict_batch_ref model s r include_shap).2.1 ≠ r
        ∧ (predict_batch_ref model s r include_shap).1.mem
            (predict_batch_ref model s r include_shap).2.1
          = ((s.mem r).setColumn "Churn_Probability"
              ((predict_batch_ref model s r include_shap).2.2.2.1.map Value.num)).setColumn
              "Risk_Level" ((predict_batch_ref model s r include_shap).2.2.2.1.map
                (fun q => Value.str (if (3 : ℚ)/5 < q then "High" else "Low")))) := by
  have hd1 : (s.alloc (s.mem r)).2 = s.next := rfl
  have hn1 : (s.alloc (s.mem r)).1.next = s.next + 1 := rfl
  have hm1r : (s.alloc (s.mem r)).1.mem r = s.mem r := PdState.alloc_mem_lt s _ h
  have hm1d : (s.alloc (s.mem r)).1.mem (s.alloc (s.mem r)).2 = s.mem r :=
    PdState.alloc_mem_new s _
  -- stage 2: conditional drop of customerID
  have hm2r : (dropRefIfPresent (s.alloc (s.mem r)).1 (s.alloc (s.mem r)).2
      "customerID").1.mem r = s.mem r := by
    rw [dropRefIfPresent_mem _ _ _ (by omega : r < (s.alloc (s.mem r)).1.next)]
    exact hm1r
  have hn2 : s.next + 1 ≤ (dropRefIfPresent (s.alloc (s.mem r)).1 (s.alloc (s.mem r)).2
      "customerID").1.next := by
    have := dropRefIfPresent_next (s.alloc (s.mem r)).1 (s.alloc (s.mem r)).2 "customerID"
    omega
  have hlow2 : s.next ≤ (dropRefIfPresent (s.alloc (s.mem r)).1 (s.alloc (s.mem r)).2
      "customerID").2 := by
    rcases dropRefIfPresent_ref_cases (s.alloc (s.mem r)).1 (s.alloc (s.mem r)).2
      "customerID" with he | he <;> rw [he]
    · rw [hd1]
    · rw [hn1]
      omega
  have hlt2 : (dropRefIfPresent (s.alloc (s.mem r)).1 (s.alloc (s.mem r)).2
        "customerID").2
      < (dropRefIfPresent (s.alloc (s.mem r)).1 (s.alloc (s.mem r)).2 "customerID").1.next :=
    dropRefIfPresent_ref_lt _ _ _ (by omega)
  have hv2 : (dropRefIfPresent (s.alloc (s.mem r)).1 (s.alloc (s.mem r)).2
        "customerID").1.mem
      (dropRefIfPresent (s.alloc (s.mem r)).1 (s.alloc (s.mem r)).2 "customerID").2
      = (if (s.mem r).hasColumn "customerID"
         then (s.mem r).dropColumn "customerID" else s.mem r) := by
    rw [dropRefIfPresent_val, hm1d]
  -- stage 3: conditional drop of Churn
  have hm3r : (dropRefIfPresent (dropRefIfPresent (s.alloc (s.mem r)).1
        (s.alloc (s.mem r)).2 "customerID").1
      (dropRefIfPresent (s.alloc (s.mem r)).1 (s.alloc (s.mem r)).2 "customerID").2
      "Churn").1.mem r = s.mem r := by
    rw [dropRefIfPresent_mem _ _ _ (by omega : r < (dropRefIfPresent (s.alloc (s.mem r)).1
      (s.alloc (s.mem r)).2 "customerID").1.next)]
    exact hm2r
  have hn3 : s.next + 1 ≤ (dropRefIfPresent (dropRefIfPresent (s.alloc (s.mem r)).1
        (s.alloc (s.mem r)).2 "customerID").1
      (dropRefIfPresent (s.alloc (s.mem r)).1 (s.alloc (s.mem r)).2 "customerID").2
      "Churn").1.next := by
    have := dropRefIfPresent_next (dropRefIfPresent (s.alloc (s.mem r)).1
      (s.alloc (s.mem r)).2 "customerID").1
      (dropRefIfPresent (s.alloc (s.mem r)).1 (s.alloc (s.mem r)).2 "customerID").2 "Churn"
    omega
  have hlow3 : s.next ≤ (dropRefIfPresent (dropRefIfPresent (s.alloc (s.mem r)).1
        (s.alloc (s.mem r)).2 "customerID").1
      (dropRefIfPresent (s.alloc (s.mem r)).1 (s.alloc (s.mem r)).2 "customerID").2
      "Churn").2 := by
    rcases dropRefIfPresent_ref_cases (dropRefIfPresent (s.alloc (s.mem r)).1
        (s.alloc (s.mem r)).2 "customerID").1
        (dropRefIfPresent (s.alloc (s.mem r)).1 (s.alloc (s.mem r)).2 "customerID").2
        "Churn" with he | he <;> rw [he]
    · exact hlow2
    · omega
  have hne3 : (dropRefIfPresent (dropRefIfPresent (s.alloc (s.mem r)).1
        (s.alloc (s.mem r)).2 "customerID").1
      (dropRefIfPresent (s.alloc (s.mem r)).1 (s.alloc (s.mem r)).2 "customerID").2
      "Churn").2 ≠ r := by omega
  have hv3 : (dropRefIfPresent (dropRefIfPresent (s.alloc (s.mem r)).1
        (s.alloc (s.mem r)).2 "customerID").1
      (dropRefIfPresent (s.alloc (s.mem r)).1 (s.alloc (s.mem r)).2 "customerID").2
      "Churn").1.mem
      (dropRefIfPresent (dropRefIfPresent (s.alloc (s.mem r)).1
        (s.alloc (s.mem r)).2 "customerID").1
      (dropRefIfPresent (s.alloc (s.mem r)).1 (s.alloc (s.mem r)).2 "customerID").2
      "Churn").2
      = (if ((if (s.mem r).hasColumn "customerID"
              then (s.mem r).dropColumn "customerID" else s.mem r)).hasColumn "Churn"
         then ((if (s.mem r).hasColumn "customerID"
              then (s.mem r).dropColumn "customerID" else s.mem r)).dropColumn "Churn"
         else (if (s.mem r).hasColumn "customerID"
              then (s.mem r).dropColumn "customerID" else s.mem r)) := by
    rw [dropRefIfPresent_val, hv2]
  have hfst : (clean_data_ref s r).1
      = replace_cols.foldl
          (replaceRefPass (dropRefIfPresent (dropRefIfPresent (s.alloc (s.mem r)).1
              (s.alloc (s.mem r)).2 "customerID").1
            (dropRefIfPresent (s.alloc (s.mem r)).1 (s.alloc (s.mem r)).2 "customerID").2
            "Churn").2)
          (coerceRefIfPresent
            (dropRefIfPresent (dropRefIfPresent (s.alloc (s.mem r)).1
                (s.alloc (s.mem r)).2 "customerID").1
              (dropRefIfPresent (s.alloc (s.mem r)).1 (s.alloc (s.mem r)).2 "customerID").2
              "Churn").1
            (dropRefIfPresent (dropRefIfPresent (s.alloc (s.mem r)).1
                (s.alloc (s.mem r)).2 "customerID").1
              (dropRefIfPresent (s.alloc (s.mem r)).1 (s.alloc (s.mem r)).2 "customerID").2
              "Churn").2) := by
    simp only [clean_data_ref]
  have hsnd : (clean_data_ref s r).2
      = (dropRefIfPresent (dropRefIfPresent (s.alloc (s.mem r)).1
            (s.alloc (s.mem r)).2 "customerID").1
          (dropRefIfPresent (s.alloc (s.mem r)).1 (s.alloc (s.mem r)).2 "customerID").2
          "Churn").2 := by
    simp only [clean_data_ref]
  have hA : (clean_data_ref s r).1.mem r = s.mem r := by
    rw [hfst, foldl_replaceRefPass_mem_ne _ _ _ (by omega),
        coerceRefIfPresent_mem_ne _ _ (by omega)]
    exact hm3r
  have hC : (clean_data_ref s r).1.mem (clean_data_ref s r).2 = clean_data (s.mem r) := by
    rw [hfst, hsnd, foldl_replaceRefPass_mem_self, coerceRefIfPresent_val, hv3]
    rfl
  have hnext5 : s.next ≤ (clean_data_ref s r).1.next := by
    rw [hfst, foldl_replaceRefPass_next, coerceRefIfPresent_next]
    omega
  refine ⟨hA, ?_, ?_, hC, ?_⟩
  · rw [hsnd]
    exact hlow3
  · rw [hsnd]
    omega
  · intro model include_shap
    have halloc2 : ((clean_data_ref s r).1.alloc ((clean_data_ref s r).1.mem r)).2
        = (clean_data_ref s r).1.next := PdState.alloc_ref _ _
    have hres_ref : (predict_batch_ref model s r include_shap).2.1
        = (clean_data_ref s r).1.next := by
      simp only [predict_batch_ref]
      exact PdState.alloc_ref _ _
    have hprobs : (predict_batch_ref model s r include_shap).2.2.2.1
        = (model.predict_proba ((clean_data_ref s r).1.mem
            (clean_data_ref s r).2)).map (fun row => row.getD 1 0) := by
      simp only [predict_batch_ref]
    have hstate : (predict_batch_ref model s r include_shap).1
        = (((clean_data_ref s r).1.alloc ((clean_data_ref s r).1.mem r)).1.write
            (((clean_data_ref s r).1.alloc ((clean_data_ref s r).1.mem r)).2)
            ((((clean_data_ref s r).1.alloc ((clean_data_ref s r).1.mem r)).1.mem
                (((clean_data_ref s r).1.alloc ((clean_data_ref s r).1.mem r)).2)).setColumn
              "Churn_Probability"
              (((model.predict_proba ((clean_data_ref s r).1.mem
                  (clean_data_ref s r).2)).map (fun row => row.getD 1 0)).map
                Value.num))).write
            (((clean_data_ref s r).1.alloc ((clean_data_ref s r).1.mem r)).2)
            (((((clean_data_ref s r).1.alloc ((clean_data_ref s r).1.mem r)).1.write
                (((clean_data_ref s r).1.alloc ((clean_data_ref s r).1.mem r)).2)
                ((((clean_data_ref s r).1.alloc ((clean_data_ref s r).1.mem r)).1.mem
                    (((clean_data_ref s r).1.alloc ((clean_data_ref s r).1.mem r)).2)).setColumn
                  "Churn_Probability"
                  (((model.predict_proba ((clean_data_ref s r).1.mem
                      (clean_data_ref s r).2)).map (fun row => row.getD 1 0)).map
                    Value.num))).mem
                (((clean_data_ref s r).1.alloc ((clean_data_ref s r).1.mem r)).2)).setColumn
              "Risk_Level"
              (((model.predict_proba ((clean_data_ref s r).1.mem
                  (clean_data_ref s r).2)).map (fun row => row.getD 1 0)).map
                (fun q => Value.str (if (3 : ℚ)/5 < q then "High" else "Low")))) := by
      simp only [predict_batch_ref]
    refine ⟨?_, ?_, ?_⟩
    · rw [hstate, halloc2,
          PdState.write_mem_ne _ _ (by omega : r ≠ (clean_data_ref s r).1.next),
          PdState.write_mem_ne _ _ (by omega : r ≠ (clean_data_ref s r).1.next),
          PdState.alloc_mem_lt _ _ (by omega : r < (clean_data_ref s r).1.next)]
      exact hA
    · rw [hres_ref]
      omega
    · rw [hstate, hres_ref, hprobs, halloc2, PdState.write_mem_self]
      congr 1
      rw [PdState.write_mem_self]
      congr 1
      have hnew := PdState.alloc_mem_new (clean_data_ref s r).1 ((clean_data_ref s r).1.mem r)
      rw [halloc2] at hnew
      rw [hnew]
      exact hA

/-- Witness for C10 at a one-object heap: cleaning the frame at reference 0
leaves reference 0 unchanged. -/
theorem clean_data_ref_frame_witness :
    (clean_data_ref ⟨1, fun _ => demoBatchDF⟩ 0).1.mem 0
      = PdState.mem ⟨1, fun _ => demoBatchDF⟩ 0 :=
  (clean_data_ref_frame ⟨1, fun _ => demoBatchDF⟩ 0 Nat.zero_lt_one).1

end ChurnGuard
